import Mathlib

/-!
Verification of the toroidal Game of Life in `src/game.ts`.

The grid `this.field : number[][]` is modelled as a list of rows, so the
source read `this.field[y][x]` becomes `getCell field y x`.  Machine numbers
only ever hold the small naturals `0`/`1` (cell values) and neighbour counts
up to `8`, so `Nat` is used throughout.  Writes through the proxy installed
by `generateField` are modelled together with the render notification they
emit (`drawCell`).  The mutable fields of the `GameOfLife` object that the
scheduling claims mention are collected in a `GameState` record, and
`updateField` / `render` / `init` / `reset` become state transformers.
-/

/-- Constant `CELL_SIZE` of the source. -/
def CELL_SIZE : Nat := 15

/-- Constant `NEIGHBOURS`: the 8 relative offsets, the self offset `[0,0]`
commented out in the source. Entries are `(x, y)` offsets. -/
def NEIGHBOURS : List (Int × Int) :=
  [(-1, -1), (0, -1), (1, -1),
   (-1, 0), (1, 0),
   (-1, 1), (0, 1), (1, 1)]

structure Breakpoints where
  OVERPOPULATION : Nat
  UNDERPOPULATION : Nat
  NEWBORN : Nat
deriving DecidableEq

/-- Constant `BREAKPOINTS` of the source. -/
def BREAKPOINTS : Breakpoints :=
  { OVERPOPULATION := 3, UNDERPOPULATION := 2, NEWBORN := 3 }

/-- The field `number[][]`: a list of `rows` rows, each of length `cols`. -/
abbrev Grid := List (List Nat)

/-- Reading `field[y][x]` (used in the source only at indices that are in
range on a well-formed field, where the default never fires). -/
def getCell (field : Grid) (y x : Nat) : Nat :=
  ((field[y]?).bind fun row => row[x]?).getD 0

/-- The storage part of a write `field[y][x] = v`.  A write outside the
stored rectangle leaves every in-grid cell unchanged (in JavaScript it would
land outside the `cols × rows` grid proper). -/
def setCellRaw (field : Grid) (y x v : Nat) : Grid :=
  field.set y ((field.getD y []).set x v)

/-- Well-formed field: `rows` rows, each of length `cols`. -/
def WF (field : Grid) (cols rows : Nat) : Prop :=
  field.length = rows ∧ ∀ row ∈ field, row.length = cols

/-- Invariant: every stored cell value is `0` or `1`. -/
def InvField (field : Grid) : Prop :=
  ∀ row ∈ field, ∀ v ∈ row, v = 0 ∨ v = 1

/-- Toroidal wraparound of one coordinate as written in `getNeighboursCount`:
a coordinate `< 0` wraps to `dim - 1`, a coordinate `≥ dim` wraps to `0`. -/
def wrap (dim : Nat) (n : Int) : Nat :=
  if n < 0 then dim - 1 else if (dim : Int) ≤ n then 0 else n.toNat

/-- The fresh field built by `generateField`: `rows` rows of `cols` zeroes
(the proxy wrapper only adds the notification side channel). -/
def generateField (rows cols : Nat) : Grid :=
  List.replicate rows (List.replicate cols 0)

/-- One render notification: `drawCell(x * CELL_SIZE, y * CELL_SIZE,
CELL_STATES[v])`, recorded with the numeric cell value (`CELL_STATES` only
maps `0`/`1` to a colour string). -/
structure Notification where
  px : Nat
  py : Nat
  value : Nat
deriving DecidableEq

/-- One write through the proxy installed by `generateField`.  `Reflect.set`
succeeds on every plain array write, so the handler calls `drawCell` after
every write — whether or not the new value differs from the stored one; the
value reported is `this.field[y][x]` just after the write, i.e. `v`. -/
def proxySet (field : Grid) (y x v : Nat) : Grid × List Notification :=
  (setCellRaw field y x v, [⟨x * CELL_SIZE, y * CELL_SIZE, v⟩])

/-- An entry of the `cellsToChange` array in `updateField`. -/
structure Change where
  x : Nat
  y : Nat
  state : Nat
deriving DecidableEq

/-- The loop of `getNeighboursCount`: before each neighbour it breaks once
`count > BREAKPOINTS.OVERPOPULATION`; otherwise it adds the wrapped
neighbour's value (offset `n.1` on x, `n.2` on y). -/
def neighboursLoop (cols rows : Nat) (field : Grid) (Cx Cy : Nat) :
    List (Int × Int) → Nat → Nat
  | [], count => count
  | n :: rest, count =>
    if BREAKPOINTS.OVERPOPULATION < count then count
    else
      neighboursLoop cols rows field Cx Cy rest
        (count + getCell field (wrap rows ((Cy : Int) + n.2)) (wrap cols ((Cx : Int) + n.1)))

/-- Source `getNeighboursCount` (early-exit neighbour count). -/
def getNeighboursCount (cols rows : Nat) (field : Grid) (Cx Cy : Nat) : Nat :=
  neighboursLoop cols rows field Cx Cy NEIGHBOURS 0

/-- Specification-side full 8-neighbour sum: same offsets and wraparound,
but no early exit. -/
def getNeighboursCountFull (cols rows : Nat) (field : Grid) (Cx Cy : Nat) : Nat :=
  (NEIGHBOURS.map fun n =>
    getCell field (wrap rows ((Cy : Int) + n.2)) (wrap cols ((Cx : Int) + n.1))).sum

/-- The birth/death rule inlined in the body of `getCellState` (`0` is falsy,
any other number truthy). -/
def ruleNextState (isAlive neighboursCount : Nat) : Nat :=
  if isAlive ≠ 0 ∧ (BREAKPOINTS.OVERPOPULATION < neighboursCount ∨
      neighboursCount < BREAKPOINTS.UNDERPOPULATION) then 0
  else if isAlive = 0 ∧ neighboursCount = BREAKPOINTS.NEWBORN then 1
  else isAlive

/-- Source `getCellState`: the rule applied to the cell's current value and
its early-exit neighbour count. -/
def getCellState (cols rows : Nat) (field : Grid) (x y : Nat) : Nat :=
  ruleNextState (getCell field y x) (getNeighboursCount cols rows field x y)

/-- One cell of the scan in `updateField`: a change entry is pushed exactly
when the computed next state differs from the current value. -/
def changeOf (cols rows : Nat) (field : Grid) (x y : Nat) : Option Change :=
  if getCellState cols rows field x y ≠ getCell field y x then
    some ⟨x, y, getCellState cols rows field x y⟩
  else none

/-- The `cellsToChange` list produced by the scan of `updateField`
(x outer, y inner, as in the source). -/
def updateScanChanges (cols rows : Nat) (field : Grid) : List Change :=
  (List.range cols).flatMap fun x =>
    (List.range rows).filterMap fun y => changeOf cols rows field x y

/-- The `hasSignsOfLife` flag after the scan: reset to `false` on entry and
latched to `true` once some computed next state is truthy. -/
def updateScanHasLife (cols rows : Nat) (field : Grid) : Bool :=
  (List.range cols).any fun x => (List.range rows).any fun y =>
    getCellState cols rows field x y != 0

/-- The scan loops of `updateField` as written: a double fold that pushes
into `cellsToChange` and latches `hasSignsOfLife`. -/
def updateScan (cols rows : Nat) (field : Grid) : List Change × Bool :=
  (List.range cols).foldl (fun acc x =>
    (List.range rows).foldl (fun acc2 y =>
      ((if getCellState cols rows field x y ≠ getCell field y x
          then acc2.1 ++ [⟨x, y, getCellState cols rows field x y⟩] else acc2.1),
        acc2.2 || (getCellState cols rows field x y != 0))) acc) ([], false)

/-- The apply loop of `updateField`: sequential writes
`this.field[c.y][c.x] = c.state` (storage part). -/
def applyChanges (field : Grid) (cs : List Change) : Grid :=
  cs.foldl (fun f c => setCellRaw f c.y c.x c.state) field

/-- The effect of `updateField` on the field: the full scan completes, then
the recorded changes are written back. -/
def updateField (cols rows : Nat) (field : Grid) : Grid :=
  applyChanges field (updateScan cols rows field).1

/-- The apply loop together with the notifications the proxy emits on each
write. -/
def applyChangesN (field : Grid) (cs : List Change) : Grid × List Notification :=
  cs.foldl (fun acc c =>
    ((proxySet acc.1 c.y c.x c.state).1, acc.2 ++ (proxySet acc.1 c.y c.x c.state).2))
    (field, [])

/-- Source `getCellCoords`: `Math.floor(offset / CELL_SIZE)` on both axes
(floor division, as pointer offsets may be negative). -/
def getCellCoords (offsetX offsetY : Int) : Int × Int :=
  (Int.fdiv offsetX CELL_SIZE, Int.fdiv offsetY CELL_SIZE)

/-- The guarded optional read `this.field[y]?.[x]` of `setMode`: any index
outside the stored rectangle yields no value. -/
def readCell? (field : Grid) (y x : Int) : Option Nat :=
  if 0 ≤ y ∧ 0 ≤ x then (field[y.toNat]?).bind fun row => row[x.toNat]? else none

/-- A write at possibly signed computed coordinates; a write that lands
outside the stored rectangle changes no in-grid cell. -/
def setCellInt (field : Grid) (y x : Int) (v : Nat) : Grid :=
  if 0 ≤ y ∧ 0 ≤ x then setCellRaw field y.toNat x.toNat v else field

/-- Source `setFirstGen`: the event is ignored unless `buttons === 1` and
`0 ≤ offsetY < rows * CELL_SIZE` (`canvas.height`); otherwise the mapped
cell is painted with `+this.isSetting`.  No horizontal bound is checked. -/
def setFirstGen (rows : Nat) (field : Grid) (isSetting : Bool)
    (buttons : Nat) (offsetX offsetY : Int) : Grid :=
  if buttons ≠ 1 ∨ offsetY < 0 ∨ ((rows : Int) * CELL_SIZE ≤ offsetY) then field
  else
    setCellInt field (getCellCoords offsetX offsetY).2 (getCellCoords offsetX offsetY).1
      (if isSetting then 1 else 0)

/-- Source `setMode` (mousedown): sample `isSetting = !this.field[y]?.[x]`
(the negation of the targeted cell's truthiness, `true` when the guarded
read yields no value), then paint through `setFirstGen`. -/
def setMode (rows : Nat) (field : Grid) (buttons : Nat) (offsetX offsetY : Int) :
    Bool × Grid :=
  ((readCell? field (getCellCoords offsetX offsetY).2 (getCellCoords offsetX offsetY).1).getD 0
      == 0,
   setFirstGen rows field
     ((readCell? field (getCellCoords offsetX offsetY).2
        (getCellCoords offsetX offsetY).1).getD 0 == 0)
     buttons offsetX offsetY)

/-- The mutable fields of the `GameOfLife` object that the stepping and
termination claims mention.  `alerts` records each outcome report in order
(`true` for "reached harmony!", `false` for "perished :("). -/
structure GameState where
  cols : Nat
  rows : Nat
  field : Grid
  isSetting : Bool
  isRunning : Bool
  timerPending : Bool
  framePending : Bool
  hasSignsOfLife : Bool
  alerts : List Bool
deriving DecidableEq

/-- Source `init` (state part): stop the run, build a fresh field, mark
`hasSignsOfLife`. -/
def initS (s : GameState) : GameState :=
  { s with
    isRunning := false
    field := generateField s.rows s.cols
    hasSignsOfLife := true }

/-- Source `reset`: clear the pending timeout and animation frame, then
`init`. -/
def resetS (s : GameState) : GameState :=
  initS { s with timerPending := false, framePending := false }

/-- Source `updateField` as a state transformer: run the full scan; when the
diff is empty, stop the run, cancel both pending handles, report the outcome
exactly once (and `reset` on extinction); finally run the (then empty) apply
loop on whatever field is current. -/
def updateFieldS (s : GameState) : GameState :=
  let cellsToChange := updateScanChanges s.cols s.rows s.field
  let hasLife := updateScanHasLife s.cols s.rows s.field
  let s1 : GameState := { s with hasSignsOfLife := hasLife }
  let s2 : GameState :=
    if cellsToChange.isEmpty then
      let sHalt : GameState :=
        { s1 with
          isRunning := false
          framePending := false
          timerPending := false
          alerts := s1.alerts ++ [hasLife] }
      if hasLife then sHalt else resetS sHalt
    else s1
  { s2 with field := applyChanges s2.field cellsToChange }

/-- Source `render`: a no-op unless running; otherwise one `updateField`
followed by scheduling the next tick (`setTimeout`). -/
def renderS (s : GameState) : GameState :=
  if s.isRunning then { updateFieldS s with timerPending := true } else s

instance (field : Grid) (cols rows : Nat) : Decidable (WF field cols rows) := by
  unfold WF; exact inferInstance

instance (field : Grid) : Decidable (InvField field) := by
  unfold InvField; exact inferInstance

/-! ### Reading and writing single cells -/

lemma length_setCellRaw (field : Grid) (y x v : Nat) :
    (setCellRaw field y x v).length = field.length := by
  simp [setCellRaw]

lemma setCellRaw_of_length_le (field : Grid) {y : Nat} (x v : Nat)
    (h : field.length ≤ y) : setCellRaw field y x v = field := by
  simp [setCellRaw, List.set_eq_of_length_le h]

lemma getD_eq_of_lt (field : Grid) {y : Nat} (h : y < field.length) :
    field.getD y [] = field[y] := by
  simp [List.getD_eq_getElem?_getD, List.getElem?_eq_getElem h]

lemma getCell_setCellRaw_self (field : Grid) {y x : Nat} (v : Nat)
    (hy : y < field.length) (hx : x < (field.getD y []).length) :
    getCell (setCellRaw field y x v) y x = v := by
  unfold getCell setCellRaw
  rw [List.getElem?_set_self (by simpa using hy)]
  simp [List.getElem?_set_self (by simpa using hx)]

lemma getCell_setCellRaw_ne (field : Grid) {y x : Nat} (v : Nat) {y' x' : Nat}
    (h : y' ≠ y ∨ x' ≠ x) :
    getCell (setCellRaw field y x v) y' x' = getCell field y' x' := by
  rcases Nat.lt_or_ge y field.length with hy | hy
  · rcases h with h | h
    · unfold getCell setCellRaw
      rw [List.getElem?_set_ne (fun he => h he.symm)]
    · rcases eq_or_ne y' y with rfl | hne
      · unfold getCell setCellRaw
        rw [List.getElem?_set_self (by simpa using hy), getD_eq_of_lt field hy,
          List.getElem?_eq_getElem hy]
        simp [List.getElem?_set_ne (fun he : x = x' => h he.symm)]
      · unfold getCell setCellRaw
        rw [List.getElem?_set_ne (fun he => hne he.symm)]
  · rw [setCellRaw_of_length_le field x v hy]

lemma WF_setCellRaw {field : Grid} {cols rows : Nat} (y x v : Nat)
    (h : WF field cols rows) : WF (setCellRaw field y x v) cols rows := by
  rcases Nat.lt_or_ge y field.length with hy | hy
  · refine ⟨by simpa [length_setCellRaw] using h.1, ?_⟩
    intro row hrow
    rcases List.mem_or_eq_of_mem_set hrow with hmem | rfl
    · exact h.2 row hmem
    · rw [List.length_set, getD_eq_of_lt field hy]
      exact h.2 _ (List.getElem_mem hy)
  · rwa [setCellRaw_of_length_le field x v hy]

lemma InvField_setCellRaw {field : Grid} {y x v : Nat}
    (h : InvField field) (hv : v = 0 ∨ v = 1) :
    InvField (setCellRaw field y x v) := by
  rcases Nat.lt_or_ge y field.length with hy | hy
  · intro row hrow
    rcases List.mem_or_eq_of_mem_set hrow with hmem | rfl
    · exact h row hmem
    · intro w hw
      rcases List.mem_or_eq_of_mem_set hw with hmem | rfl
      · rw [getD_eq_of_lt field hy] at hmem
        exact h _ (List.getElem_mem hy) w hmem
      · exact hv
  · rwa [setCellRaw_of_length_le field x v hy]

lemma getCell_mem01 {field : Grid} (h : InvField field) (y x : Nat) :
    getCell field y x = 0 ∨ getCell field y x = 1 := by
  unfold getCell
  rcases hrow : field[y]? with _ | row
  · simp
  · rcases hv : row[x]? with _ | v
    · simp [hv]
    · rw [Option.some_bind, hv]
      simpa using h row (List.getElem?_mem hrow) v (List.getElem?_mem hv)

/-! ### Neighbour counting: the early exit against the full sum -/

lemma OVERPOPULATION_eq : BREAKPOINTS.OVERPOPULATION = 3 := rfl

lemma UNDERPOPULATION_eq : BREAKPOINTS.UNDERPOPULATION = 2 := rfl

lemma NEWBORN_eq : BREAKPOINTS.NEWBORN = 3 := rfl

lemma neighboursLoop_spec (cols rows : Nat) (field : Grid) (Cx Cy : Nat)
    (ns : List (Int × Int)) : ∀ acc : Nat,
    neighboursLoop cols rows field Cx Cy ns acc
        = acc + (ns.map fun n =>
            getCell field (wrap rows ((Cy : Int) + n.2)) (wrap cols ((Cx : Int) + n.1))).sum
      ∨ (BREAKPOINTS.OVERPOPULATION < neighboursLoop cols rows field Cx Cy ns acc
          ∧ neighboursLoop cols rows field Cx Cy ns acc
              ≤ acc + (ns.map fun n =>
                  getCell field (wrap rows ((Cy : Int) + n.2)) (wrap cols ((Cx : Int) + n.1))).sum) := by
  induction ns with
  | nil =>
    intro acc
    left
    simp [neighboursLoop]
  | cons n rest ih =>
    intro acc
    by_cases h : BREAKPOINTS.OVERPOPULATION < acc
    · right
      simp only [neighboursLoop, if_pos h, List.map_cons, List.sum_cons]
      omega
    · rcases ih (acc + getCell field (wrap rows ((Cy : Int) + n.2)) (wrap cols ((Cx : Int) + n.1)))
        with h1 | ⟨h2a, h2b⟩
      · left
        simp only [neighboursLoop, if_neg h, List.map_cons, List.sum_cons, h1]
        omega
      · right
        simp only [neighboursLoop, if_neg h, List.map_cons, List.sum_cons]
        exact ⟨h2a, by omega⟩

lemma getNeighboursCount_cases (cols rows : Nat) (field : Grid) (Cx Cy : Nat) :
    getNeighboursCount cols rows field Cx Cy = getNeighboursCountFull cols rows field Cx Cy
      ∨ (BREAKPOINTS.OVERPOPULATION < getNeighboursCount cols rows field Cx Cy
          ∧ getNeighboursCount cols rows field Cx Cy
              ≤ getNeighboursCountFull cols rows field Cx Cy) := by
  have h := neighboursLoop_spec cols rows field Cx Cy NEIGHBOURS 0
  simpa [getNeighboursCount, getNeighboursCountFull] using h

lemma getNeighboursCount_eq_full_of_le (cols rows : Nat) (field : Grid) (Cx Cy : Nat)
    (h : getNeighboursCountFull cols rows field Cx Cy ≤ BREAKPOINTS.OVERPOPULATION + 1) :
    getNeighboursCount cols rows field Cx Cy = getNeighboursCountFull cols rows field Cx Cy := by
  rcases getNeighboursCount_cases cols rows field Cx Cy with h1 | ⟨h2a, h2b⟩
  · exact h1
  · omega

lemma ruleNextState_congr_count (s : Nat) {c1 c2 : Nat}
    (h : c1 = c2 ∨ (BREAKPOINTS.OVERPOPULATION < c1 ∧ c1 ≤ c2)) :
    ruleNextState s c1 = ruleNextState s c2 := by
  rcases h with rfl | ⟨h1, h2⟩
  · rfl
  · unfold ruleNextState
    rw [OVERPOPULATION_eq, UNDERPOPULATION_eq, NEWBORN_eq] at *
    split_ifs <;> omega

/-! ### The scan of updateField -/

lemma updateScan_inner (cols rows : Nat) (field : Grid) (x : Nat) (ys : List Nat) :
    ∀ acc : List Change × Bool,
    ys.foldl (fun acc2 y =>
        ((if getCellState cols rows field x y ≠ getCell field y x
            then acc2.1 ++ [⟨x, y, getCellState cols rows field x y⟩] else acc2.1),
          acc2.2 || (getCellState cols rows field x y != 0))) acc
      = (acc.1 ++ ys.filterMap (fun y => changeOf cols rows field x y),
         acc.2 || ys.any (fun y => getCellState cols rows field x y != 0)) := by
  induction ys with
  | nil =>
    intro acc
    simp
  | cons y ys ih =>
    intro acc
    rw [List.foldl_cons, ih]
    by_cases h : getCellState cols rows field x y ≠ getCell field y x
    · have hc : changeOf cols rows field x y = some ⟨x, y, getCellState cols rows field x y⟩ := by
        simp [changeOf, h]
      rw [List.filterMap_cons_some hc]
      simp [h, Bool.or_assoc]
    · have hc : changeOf cols rows field x y = none := by
        simp [changeOf]
        simpa using not_not.mp h
      rw [List.filterMap_cons_none hc]
      simp [h, Bool.or_assoc]

lemma updateScan_eq (cols rows : Nat) (field : Grid) :
    updateScan cols rows field
      = (updateScanChanges cols rows field, updateScanHasLife cols rows field) := by
  unfold updateScan updateScanChanges updateScanHasLife
  suffices h : ∀ (xs : List Nat) (acc : List Change × Bool),
      xs.foldl (fun acc x =>
        (List.range rows).foldl (fun acc2 y =>
          ((if getCellState cols rows field x y ≠ getCell field y x
              then acc2.1 ++ [⟨x, y, getCellState cols rows field x y⟩] else acc2.1),
            acc2.2 || (getCellState cols rows field x y != 0))) acc) acc
        = (acc.1 ++ xs.flatMap (fun x =>
              (List.range rows).filterMap fun y => changeOf cols rows field x y),
           acc.2 || xs.any (fun x =>
              (List.range rows).any fun y => getCellState cols rows field x y != 0)) by
    simpa using h (List.range cols) ([], false)
  intro xs
  induction xs with
  | nil =>
    intro acc
    simp
  | cons x xs ih =>
    intro acc
    rw [List.foldl_cons, updateScan_inner, ih]
    simp [Bool.or_assoc]

lemma changeOf_eq_some {cols rows : Nat} {field : Grid} {x y : Nat} {c : Change} :
    changeOf cols rows field x y = some c ↔
      getCellState cols rows field x y ≠ getCell field y x ∧
        c = ⟨x, y, getCellState cols rows field x y⟩ := by
  unfold changeOf
  split_ifs with h
  · simp [h, eq_comm]
  · simp [h]

lemma mem_updateScanChanges {cols rows : Nat} {field : Grid} {c : Change} :
    c ∈ updateScanChanges cols rows field ↔
      c.x < cols ∧ c.y < rows ∧
        c.state = getCellState cols rows field c.x c.y ∧
        getCellState cols rows field c.x c.y ≠ getCell field c.y c.x := by
  unfold updateScanChanges
  simp only [List.mem_flatMap, List.mem_filterMap, List.mem_range]
  constructor
  · rintro ⟨x, hx, y, hy, hc⟩
    rcases changeOf_eq_some.mp hc with ⟨hne, rfl⟩
    exact ⟨hx, hy, rfl, hne⟩
  · rintro ⟨hx, hy, hs, hne⟩
    refine ⟨c.x, hx, c.y, hy, ?_⟩
    rw [changeOf_eq_some]
    obtain ⟨cx, cy, cs⟩ := c
    simp only at hs hne hx hy
    exact ⟨hne, by rw [hs]⟩

lemma pairwise_filterMap_changes (cols rows : Nat) (field : Grid) (x : Nat) :
    ((List.range rows).filterMap fun y => changeOf cols rows field x y).Pairwise
      (fun a b => a.x ≠ b.x ∨ a.y ≠ b.y) := by
  have key : ∀ ys : List Nat, ys.Pairwise (· ≠ ·) →
      (ys.filterMap fun y => changeOf cols rows field x y).Pairwise
        (fun a b => a.x ≠ b.x ∨ a.y ≠ b.y) := by
    intro ys
    induction ys with
    | nil =>
      intro _
      simp
    | cons y ys ih =>
      intro hp
      rcases List.pairwise_cons.mp hp with ⟨h1, h2⟩
      rcases hc : changeOf cols rows field x y with _ | c
      · rw [List.filterMap_cons_none hc]
        exact ih h2
      · rw [List.filterMap_cons_some hc]
        refine List.pairwise_cons.mpr ⟨?_, ih h2⟩
        intro b hb
        rcases List.mem_filterMap.mp hb with ⟨y', hy', hb'⟩
        right
        rcases changeOf_eq_some.mp hc with ⟨_, rfl⟩
        rcases changeOf_eq_some.mp hb' with ⟨_, rfl⟩
        simpa using h1 y' hy'
  exact key _ (List.nodup_range rows)

lemma changes_col_eq {cols rows : Nat} {field : Grid} {x : Nat} {c : Change}
    (hc : c ∈ (List.range rows).filterMap fun y => changeOf cols rows field x y) :
    c.x = x := by
  rcases List.mem_filterMap.mp hc with ⟨y, _, hy⟩
  rcases changeOf_eq_some.mp hy with ⟨_, rfl⟩
  rfl

lemma pairwise_updateScanChanges (cols rows : Nat) (field : Grid) :
    (updateScanChanges cols rows field).Pairwise (fun a b => a.x ≠ b.x ∨ a.y ≠ b.y) := by
  unfold updateScanChanges
  have key : ∀ xs : List Nat, xs.Pairwise (· ≠ ·) →
      (xs.flatMap fun x =>
        (List.range rows).filterMap fun y => changeOf cols rows field x y).Pairwise
          (fun a b => a.x ≠ b.x ∨ a.y ≠ b.y) := by
    intro xs
    induction xs with
    | nil =>
      intro _
      simp
    | cons x xs ih =>
      intro hp
      rcases List.pairwise_cons.mp hp with ⟨h1, h2⟩
      rw [List.flatMap_cons]
      refine List.pairwise_append.mpr ⟨pairwise_filterMap_changes cols rows field x, ih h2, ?_⟩
      intro a ha b hb
      rcases List.mem_flatMap.mp hb with ⟨x', hx', hb'⟩
      left
      rw [changes_col_eq ha, changes_col_eq hb']
      exact h1 x' hx'
  exact key _ (List.nodup_range cols)

/-! ### The apply phase of updateField -/

lemma applyChanges_cons (field : Grid) (c : Change) (cs : List Change) :
    applyChanges field (c :: cs) = applyChanges (setCellRaw field c.y c.x c.state) cs := rfl

lemma getCell_applyChanges_not_mem {cs : List Change} {y x : Nat}
    (h : ∀ c ∈ cs, c.y ≠ y ∨ c.x ≠ x) (field : Grid) :
    getCell (applyChanges field cs) y x = getCell field y x := by
  induction cs generalizing field with
  | nil => rfl
  | cons c cs ih =>
    rw [applyChanges_cons, ih fun c' hc' => h c' (List.mem_cons_of_mem _ hc')]
    refine getCell_setCellRaw_ne field _ ?_
    rcases h c (List.mem_cons_self _ _) with hne | hne
    · exact Or.inl fun he => hne he.symm
    · exact Or.inr fun he => hne he.symm

lemma WF_applyChanges {cols rows : Nat} {cs : List Change} {field : Grid}
    (h : WF field cols rows) : WF (applyChanges field cs) cols rows := by
  induction cs generalizing field with
  | nil => exact h
  | cons c cs ih => exact ih (WF_setCellRaw c.y c.x c.state h)

lemma getCell_applyChanges_mem {cols rows : Nat} {cs : List Change} {c : Change}
    (hr : ∀ c' ∈ cs, c'.y < rows ∧ c'.x < cols)
    (hp : cs.Pairwise fun a b => a.x ≠ b.x ∨ a.y ≠ b.y)
    (hc : c ∈ cs) {field : Grid} (hwf : WF field cols rows) :
    getCell (applyChanges field cs) c.y c.x = c.state := by
  induction cs generalizing field with
  | nil => cases hc
  | cons a cs ih =>
    rcases List.pairwise_cons.mp hp with ⟨h1, h2⟩
    rcases List.mem_cons.mp hc with rfl | hc'
    · rw [applyChanges_cons]
      have hnot : ∀ c' ∈ cs, c'.y ≠ c.y ∨ c'.x ≠ c.x := by
        intro c' hc'
        rcases h1 c' hc' with hne | hne
        · exact Or.inr fun he => hne he.symm
        · exact Or.inl fun he => hne he.symm
      rw [getCell_applyChanges_not_mem hnot]
      have hy : c.y < field.length := by
        rw [hwf.1]
        exact (hr c (List.mem_cons_self _ _)).1
      refine getCell_setCellRaw_self field c.state hy ?_
      rw [getD_eq_of_lt field hy, hwf.2 _ (List.getElem_mem hy)]
      exact (hr c (List.mem_cons_self _ _)).2
    · exact ih (fun c' h' => hr c' (List.mem_cons_of_mem _ h')) h2 hc'
        (WF_setCellRaw a.y a.x a.state hwf)

lemma InvField_applyChanges {cs : List Change} {field : Grid}
    (hInv : InvField field) (hv : ∀ c ∈ cs, c.state = 0 ∨ c.state = 1) :
    InvField (applyChanges field cs) := by
  induction cs generalizing field with
  | nil => exact hInv
  | cons c cs ih =>
    exact ih (InvField_setCellRaw hInv (hv c (List.mem_cons_self _ _)))
      fun c' h' => hv c' (List.mem_cons_of_mem _ h')

lemma applyChangesN_go (cs : List Change) : ∀ (field : Grid) (ns : List Notification),
    cs.foldl (fun acc c =>
        ((proxySet acc.1 c.y c.x c.state).1, acc.2 ++ (proxySet acc.1 c.y c.x c.state).2))
      (field, ns)
      = (applyChanges field cs,
         ns ++ cs.map fun c => ⟨c.x * CELL_SIZE, c.y * CELL_SIZE, c.state⟩) := by
  induction cs with
  | nil =>
    intro field ns
    simp [applyChanges]
  | cons c cs ih =>
    intro field ns
    rw [List.foldl_cons, ih, applyChanges_cons]
    simp [proxySet]

lemma applyChangesN_eq (field : Grid) (cs : List Change) :
    applyChangesN field cs
      = (applyChanges field cs,
         cs.map fun c => ⟨c.x * CELL_SIZE, c.y * CELL_SIZE, c.state⟩) := by
  unfold applyChangesN
  rw [applyChangesN_go]
  simp

/-! ### Claim theorems -/

/-- C1: for every well-formed grid, `updateField` produces exactly the
synchronous next generation — after the apply phase every in-range cell
`(x, y)` holds `getCellState x y` computed over the unmodified prior
generation, never a mixture of old and new values. -/
theorem C1_synchronous_update (cols rows : Nat) (field : Grid)
    (hwf : WF field cols rows) (x y : Nat) (hx : x < cols) (hy : y < rows) :
    getCell (updateField cols rows field) y x = getCellState cols rows field x y := by
  unfold updateField
  rw [updateScan_eq]
  show getCell (applyChanges field (updateScanChanges cols rows field)) y x = _
  by_cases h : getCellState cols rows field x y = getCell field y x
  · have hnot : ∀ c ∈ updateScanChanges cols rows field, c.y ≠ y ∨ c.x ≠ x := by
      intro c hc
      by_contra hcon
      push_neg at hcon
      obtain ⟨hcy, hcx⟩ := hcon
      rcases mem_updateScanChanges.mp hc with ⟨_, _, _, hne⟩
      rw [hcx, hcy] at hne
      exact hne h
    rw [getCell_applyChanges_not_mem hnot]
    exact h.symm
  · have hc : (⟨x, y, getCellState cols rows field x y⟩ : Change)
        ∈ updateScanChanges cols rows field := by
      rw [mem_updateScanChanges]
      exact ⟨hx, hy, rfl, h⟩
    have hr : ∀ c' ∈ updateScanChanges cols rows field, c'.y < rows ∧ c'.x < cols := by
      intro c' hc'
      rcases mem_updateScanChanges.mp hc' with ⟨h1, h2, _, _⟩
      exact ⟨h2, h1⟩
    have := getCell_applyChanges_mem hr (pairwise_updateScanChanges cols rows field) hc hwf
    simpa using this

theorem C1_synchronous_update_witness :
    WF [[1]] 1 1 ∧ (0 : Nat) < 1 ∧
      getCell (updateField 1 1 [[1]]) 0 0 = getCellState 1 1 [[1]] 0 0 :=
  ⟨by decide, by decide,
    C1_synchronous_update 1 1 [[1]] (by decide) 0 0 (by decide) (by decide)⟩

/-- C2: the thresholds are `OVERPOPULATION = 3`, `UNDERPOPULATION = 2`,
`NEWBORN = 3`; `getCellState` is the rule applied to the current value and
the neighbour count, and on every pair in `{0, 1} × {0..8}` the rule is the
classic B3/S23 table: a live cell dies iff its count is `> 3` or `< 2`
(survives iff it is 2 or 3), a dead cell becomes alive iff the count is
exactly 3, otherwise the state is unchanged. -/
theorem C2_rule_table :
    BREAKPOINTS.OVERPOPULATION = 3 ∧ BREAKPOINTS.UNDERPOPULATION = 2 ∧
      BREAKPOINTS.NEWBORN = 3 ∧
      (∀ (cols rows : Nat) (field : Grid) (x y : Nat),
        getCellState cols rows field x y
          = ruleNextState (getCell field y x) (getNeighboursCount cols rows field x y)) ∧
      ∀ n, n < 9 →
        (ruleNextState 1 n = 0 ↔ 3 < n ∨ n < 2) ∧
        (ruleNextState 1 n = 1 ↔ n = 2 ∨ n = 3) ∧
        (ruleNextState 0 n = 1 ↔ n = 3) ∧
        (ruleNextState 0 n = 0 ↔ n ≠ 3) := by
  refine ⟨rfl, rfl, rfl, fun _ _ _ _ _ => rfl, ?_⟩
  decide

theorem C2_rule_table_witness :
    (3 : Nat) < 9 ∧ (ruleNextState 1 3 = 1 ↔ (3 : Nat) = 2 ∨ (3 : Nat) = 3) :=
  ⟨by decide, (C2_rule_table.2.2.2.2 3 (by decide)).2.1⟩

/-- C3: whenever the scan of `updateField` computes an empty change list,
the run halts — the running flag is cleared, both the pending timeout and
the pending animation frame are cancelled, a further `render` is a no-op —
and the outcome is reported exactly once, `true` ("harmony") exactly when
`hasSignsOfLife` is true, i.e. when at least one cell is alive in the
computed next generation. -/
theorem C3_halt_and_outcome (s : GameState)
    (h : updateScanChanges s.cols s.rows s.field = []) :
    (updateFieldS s).isRunning = false ∧ (updateFieldS s).timerPending = false ∧
      (updateFieldS s).framePending = false ∧
      (updateFieldS s).alerts = s.alerts ++ [updateScanHasLife s.cols s.rows s.field] ∧
      (updateScanHasLife s.cols s.rows s.field = true ↔
        ∃ x, x < s.cols ∧ ∃ y, y < s.rows ∧ getCellState s.cols s.rows s.field x y ≠ 0) ∧
      renderS (updateFieldS s) = updateFieldS s := by
  have hiff : updateScanHasLife s.cols s.rows s.field = true ↔
      ∃ x, x < s.cols ∧ ∃ y, y < s.rows ∧ getCellState s.cols s.rows s.field x y ≠ 0 := by
    unfold updateScanHasLife
    simp [List.any_eq_true, List.mem_range]
  by_cases hl : updateScanHasLife s.cols s.rows s.field = true <;>
    refine ⟨?_, ?_, ?_, ?_, hiff, ?_⟩ <;>
    simp [updateFieldS, h, hl, renderS, resetS, initS, applyChanges]

theorem C3_halt_and_outcome_witness :
    updateScanChanges 1 1 [[0]] = [] ∧
      (updateFieldS ⟨1, 1, [[0]], true, true, true, true, false, []⟩).isRunning = false :=
  ⟨by decide,
    (C3_halt_and_outcome ⟨1, 1, [[0]], true, true, true, true, false, []⟩ (by decide)).1⟩

/-- C4 counterexample: writing to a cell the very value it already holds
still emits one notification — the claim that writing the same value as
currently held triggers no notification is false (the proxy notifies on
every successful `Reflect.set`, and array writes always succeed). -/
theorem C4_counterexample :
    getCell [[0]] 0 0 = 0 ∧ (proxySet [[0]] 0 0 0).2.length = 1 := by decide

/-- C4 amended: every cell write through the grid's proxy triggers exactly
one notification with `(x * CELL_SIZE, y * CELL_SIZE, newState)` — whether
or not the written value differs from the stored one; in particular the
apply phase of `updateField` emits exactly one notification per recorded
change, in scan order. -/
theorem C4_every_write_notifies :
    (∀ (field : Grid) (y x v : Nat),
        (proxySet field y x v).2 = [⟨x * CELL_SIZE, y * CELL_SIZE, v⟩]) ∧
      ∀ (field : Grid) (cs : List Change),
        (applyChangesN field cs).1 = applyChanges field cs ∧
        (applyChangesN field cs).2
          = cs.map fun c => ⟨c.x * CELL_SIZE, c.y * CELL_SIZE, c.state⟩ := by
  refine ⟨fun _ _ _ _ => rfl, fun field cs => ?_⟩
  rw [applyChangesN_eq]
  exact ⟨rfl, rfl⟩

/-- C5: for every grid state and cell, `getCellState` (which uses the
early-exiting neighbour count) agrees with the rule applied to the full
8-neighbour sum: the early exit never changes the rule outcome for either a
live or a dead cell. -/
theorem C5_early_exit_safe (cols rows : Nat) (field : Grid) (x y : Nat) :
    getCellState cols rows field x y
      = ruleNextState (getCell field y x) (getNeighboursCountFull cols rows field x y) := by
  unfold getCellState
  exact ruleNextState_congr_count _ (getNeighboursCount_cases cols rows field x y)

/-- C6 counterexample: on a 3×3 all-alive grid, `getNeighboursCount` of the
centre cell stops early at 4, while the full 8-neighbour sum is 8 — so
`getNeighboursCount` does not always sum all 8 wrapped neighbours. -/
theorem C6_counterexample :
    getNeighboursCount 3 3 [[1, 1, 1], [1, 1, 1], [1, 1, 1]] 1 1 = 4 ∧
      getNeighboursCountFull 3 3 [[1, 1, 1], [1, 1, 1], [1, 1, 1]] 1 1 = 8 ∧
      getNeighboursCount 3 3 [[1, 1, 1], [1, 1, 1], [1, 1, 1]] 1 1
        ≠ getNeighboursCountFull 3 3 [[1, 1, 1], [1, 1, 1], [1, 1, 1]] 1 1 := by
  decide

/-- C6 amended: `getNeighboursCount` sums the 8 toroidally wrapped
neighbours (self offset excluded, coordinates `< 0` wrapping to
`dimension - 1` and `≥ dimension` to `0`) but may stop early once the
running sum exceeds `OVERPOPULATION`; whenever the full 8-neighbour sum is
at most `OVERPOPULATION + 1` it equals that sum — in particular, on a 3×3
grid whose only live cell is `(0, 0)`, the count at `(2, 2)` is 1. -/
theorem C6_wrapped_count :
    (∀ (cols rows : Nat) (field : Grid) (Cx Cy : Nat),
        getNeighboursCountFull cols rows field Cx Cy ≤ BREAKPOINTS.OVERPOPULATION + 1 →
          getNeighboursCount cols rows field Cx Cy
            = getNeighboursCountFull cols rows field Cx Cy) ∧
      getNeighboursCount 3 3 [[1, 0, 0], [0, 0, 0], [0, 0, 0]] 2 2 = 1 :=
  ⟨getNeighboursCount_eq_full_of_le, by decide⟩

theorem C6_wrapped_count_witness :
    getNeighboursCountFull 3 3 [[1, 0, 0], [0, 0, 0], [0, 0, 0]] 2 2
        ≤ BREAKPOINTS.OVERPOPULATION + 1 ∧
      getNeighboursCount 3 3 [[1, 0, 0], [0, 0, 0], [0, 0, 0]] 2 2
        = getNeighboursCountFull 3 3 [[1, 0, 0], [0, 0, 0], [0, 0, 0]] 2 2 :=
  ⟨by decide, C6_wrapped_count.1 3 3 [[1, 0, 0], [0, 0, 0], [0, 0, 0]] 2 2 (by decide)⟩

/-- C7: the scan list of `updateField` never records a change entry for a
cell whose computed next state equals its pre-scan value, and the apply
phase writes back only the recorded cells — every other cell of the grid is
left unchanged. -/
theorem C7_diff_minimal_frame (cols rows : Nat) (field : Grid) :
    (updateScan cols rows field).1 = updateScanChanges cols rows field ∧
      (∀ c ∈ updateScanChanges cols rows field,
        c.state = getCellState cols rows field c.x c.y ∧
          c.state ≠ getCell field c.y c.x) ∧
      ∀ y x, (∀ c ∈ updateScanChanges cols rows field, c.y ≠ y ∨ c.x ≠ x) →
        getCell (updateField cols rows field) y x = getCell field y x := by
  refine ⟨by rw [updateScan_eq], ?_, ?_⟩
  · intro c hc
    rcases mem_updateScanChanges.mp hc with ⟨_, _, hs, hne⟩
    refine ⟨hs, ?_⟩
    rw [hs]
    exact hne
  · intro y x hnot
    unfold updateField
    rw [updateScan_eq]
    exact getCell_applyChanges_not_mem hnot field

theorem C7_diff_minimal_frame_witness :
    ((⟨0, 0, 0⟩ : Change) ∈ updateScanChanges 1 1 [[1]]) ∧
      (∀ c ∈ updateScanChanges 1 1 [[1]], c.y ≠ 5 ∨ c.x ≠ 5) ∧
      (0 : Nat) ≠ getCell [[1]] 0 0 ∧
      getCell (updateField 1 1 [[1]]) 5 5 = getCell [[1]] 5 5 :=
  ⟨by decide, by decide,
    ((C7_diff_minimal_frame 1 1 [[1]]).2.1 ⟨0, 0, 0⟩ (by decide)).2,
    (C7_diff_minimal_frame 1 1 [[1]]).2.2 5 5 (by decide)⟩

/-- C8: a paint event is ignored exactly when the button mask is not the
primary button alone or the vertical offset is outside
`[0, rows * CELL_SIZE)`; otherwise the mapped cell
`(floor(offsetX / CELL_SIZE), floor(offsetY / CELL_SIZE))` is written with
the paint value, with no horizontal bounds check — and for every `cols`
there is an event with `offsetX ≥ cols * CELL_SIZE` whose target column
lies outside `[0, cols)`. -/
theorem C8_paint_guard (rows : Nat) (field : Grid) (isSetting : Bool)
    (buttons : Nat) (ox oy : Int) :
    ((buttons ≠ 1 ∨ oy < 0 ∨ (rows : Int) * CELL_SIZE ≤ oy) →
        setFirstGen rows field isSetting buttons ox oy = field) ∧
      (buttons = 1 → 0 ≤ oy → oy < (rows : Int) * CELL_SIZE →
        setFirstGen rows field isSetting buttons ox oy
          = setCellInt field (getCellCoords ox oy).2 (getCellCoords ox oy).1
              (if isSetting then 1 else 0)) ∧
      ∀ cols : Nat, ∃ ox' : Int, (cols : Int) * CELL_SIZE ≤ ox' ∧
        ¬ (getCellCoords ox' 0).1 < (cols : Int) := by
  refine ⟨?_, ?_, ?_⟩
  · intro h
    unfold setFirstGen
    rw [if_pos h]
  · intro h1 h2 h3
    unfold setFirstGen
    rw [if_neg]
    push_neg
    exact ⟨h1, h2, h3⟩
  · intro cols
    refine ⟨(cols : Int) * CELL_SIZE, le_refl _, ?_⟩
    unfold getCellCoords
    rw [Int.mul_fdiv_cancel _ (by decide)]
    exact lt_irrefl _

theorem C8_paint_guard_witness :
    ((0 : Nat) ≠ 1 ∨ (0 : Int) < 0 ∨ ((1 : Nat) : Int) * CELL_SIZE ≤ 0) ∧
      setFirstGen 1 [[0]] true 0 0 0 = [[0]] :=
  ⟨Or.inl (by decide), (C8_paint_guard 1 [[0]] true 0 0 0).1 (Or.inl (by decide))⟩

/-- C9: every operation preserves the invariant that each stored cell holds
0 or 1 — the fresh field is all zero, painting writes the coercion of the
boolean paint value, `getCellState` returns 0 or 1 on an invariant field,
and the apply phase of `updateField` only writes such computed states. -/
theorem C9_zero_one_invariant :
    (∀ rows cols : Nat, InvField (generateField rows cols)) ∧
      (∀ (rows : Nat) (field : Grid) (isSetting : Bool) (buttons : Nat) (ox oy : Int),
        InvField field → InvField (setFirstGen rows field isSetting buttons ox oy)) ∧
      (∀ (cols rows : Nat) (field : Grid) (x y : Nat),
        InvField field →
          getCellState cols rows field x y = 0 ∨ getCellState cols rows field x y = 1) ∧
      ∀ (cols rows : Nat) (field : Grid),
        InvField field → InvField (updateField cols rows field) := by
  have hcs : ∀ (cols rows : Nat) (field : Grid) (x y : Nat), InvField field →
      getCellState cols rows field x y = 0 ∨ getCellState cols rows field x y = 1 := by
    intro cols rows field x y h
    unfold getCellState ruleNextState
    split_ifs
    · exact Or.inl rfl
    · exact Or.inr rfl
    · exact getCell_mem01 h y x
  refine ⟨?_, ?_, hcs, ?_⟩
  · intro rows cols
    intro row hrow v hv
    rw [List.eq_of_mem_replicate hrow] at hv
    exact Or.inl (List.eq_of_mem_replicate hv)
  · intro rows field isSetting buttons ox oy h
    unfold setFirstGen
    by_cases h1 : buttons ≠ 1 ∨ oy < 0 ∨ (rows : Int) * CELL_SIZE ≤ oy
    · rw [if_pos h1]
      exact h
    · rw [if_neg h1]
      unfold setCellInt
      by_cases h2 : 0 ≤ (getCellCoords ox oy).2 ∧ 0 ≤ (getCellCoords ox oy).1
      · rw [if_pos h2]
        refine InvField_setCellRaw h ?_
        by_cases h3 : isSetting = true
        · rw [if_pos h3]
          exact Or.inr rfl
        · rw [if_neg h3]
          exact Or.inl rfl
      · rw [if_neg h2]
        exact h
  · intro cols rows field h
    unfold updateField
    rw [updateScan_eq]
    show InvField (applyChanges field (updateScanChanges cols rows field))
    refine InvField_applyChanges h ?_
    intro c hc
    rcases mem_updateScanChanges.mp hc with ⟨_, _, hs, _⟩
    rw [hs]
    exact hcs cols rows field c.x c.y h

theorem C9_zero_one_invariant_witness :
    InvField [[1]] ∧
      (getCellState 1 1 [[1]] 0 0 = 0 ∨ getCellState 1 1 [[1]] 0 0 = 1) ∧
      InvField (updateField 1 1 [[1]]) :=
  ⟨by decide, C9_zero_one_invariant.2.2.1 1 1 [[1]] 0 0 (by decide),
    C9_zero_one_invariant.2.2.2 1 1 [[1]] (by decide)⟩

/-- C10: on mousedown the paint value is the boolean negation of the
targeted cell's truthiness (via the guarded optional read), totally — when
the mapped coordinate lies outside the grid in any direction the guarded
read yields no value and the paint value becomes alive (`true`), with no
out-of-bounds failure. -/
theorem C10_mousedown_paint_value (rows cols : Nat) (field : Grid)
    (buttons : Nat) (ox oy : Int) (hwf : WF field cols rows) :
    (setMode rows field buttons ox oy).1
        = ((readCell? field (getCellCoords ox oy).2 (getCellCoords ox oy).1).getD 0 == 0) ∧
      (((getCellCoords ox oy).2 < 0 ∨ (rows : Int) ≤ (getCellCoords ox oy).2 ∨
          (getCellCoords ox oy).1 < 0 ∨ (cols : Int) ≤ (getCellCoords ox oy).1) →
        readCell? field (getCellCoords ox oy).2 (getCellCoords ox oy).1 = none ∧
          (setMode rows field buttons ox oy).1 = true) := by
  refine ⟨rfl, fun h => ?_⟩
  have hnone : readCell? field (getCellCoords ox oy).2 (getCellCoords ox oy).1 = none := by
    unfold readCell?
    rcases h with h | h | h | h
    · rw [if_neg]
      omega
    · split_ifs with hc
      · have hlen : field.length ≤ ((getCellCoords ox oy).2).toNat := by
          rw [hwf.1]
          omega
        rw [List.getElem?_eq_none hlen, Option.none_bind]
      · rfl
    · rw [if_neg]
      omega
    · split_ifs with hc
      · rcases hrow : field[((getCellCoords ox oy).2).toNat]? with _ | row
        · rw [Option.none_bind]
        · rw [Option.some_bind]
          have hlen : row.length ≤ ((getCellCoords ox oy).1).toNat := by
            rw [hwf.2 row (List.getElem?_mem hrow)]
            omega
          exact List.getElem?_eq_none hlen
      · rfl
  refine ⟨hnone, ?_⟩
  show ((readCell? field (getCellCoords ox oy).2 (getCellCoords ox oy).1).getD 0 == 0) = true
  rw [hnone]
  rfl

theorem C10_mousedown_paint_value_witness :
    WF [[0]] 1 1 ∧ ((1 : Int) ≤ (getCellCoords 30 0).1) ∧
      (setMode 1 [[0]] 0 30 0).1 = true :=
  ⟨by decide, by decide,
    ((C10_mousedown_paint_value 1 1 [[0]] 0 30 0 (by decide)).2
      (Or.inr (Or.inr (Or.inr (by decide))))).2⟩
